import Mathlib

/-!
Verification of the insight-generation pipeline of the fintrekapi repository
(`core/management/commands/generate_daily_insight.py` and the insight views in
`core/views.py`), shallowly embedded in Lean 4.

Strings are modelled as `List Char` (`Str`), so that the Python string
operations used by the code (strip, whitespace collapse, slicing, split on
newline, case-insensitive substring search) have direct structural
definitions.  Monetary amounts are modelled as `ℚ` (the code works on exact
`Decimal` database amounts).  Database tables are lists of records, and each
outbound call (inflation API, the two stock APIs, the text-generation
service) is an oracle parameter describing the upstream behaviour, since the
code only ever inspects the response value or catches the raised exception.
-/

set_option autoImplicit false

abbrev Str := List Char

/-! ### String primitives used by `truncate_title` -/

/-- Characters matched by Python's `\s` regex class and stripped by
`str.strip()` (restricted to the ASCII range, which is all the pipeline ever
produces). -/
def pyIsSpace (c : Char) : Bool :=
  c = ' ' || c = '\t' || c = '\n' || c = '\r' || c = '\x0b' || c = '\x0c'

/-- Python `str.strip()`: drop whitespace from both ends. -/
def pyStrip (s : Str) : Str :=
  ((s.dropWhile pyIsSpace).reverse.dropWhile pyIsSpace).reverse

/-- Helper for `collapseWs`: the flag records whether the previous character
belonged to a whitespace run (so the run emits only one space in total). -/
def collapseAux : Bool → Str → Str
  | _, [] => []
  | prevWs, c :: cs =>
    if pyIsSpace c then
      (if prevWs then collapseAux true cs else ' ' :: collapseAux true cs)
    else c :: collapseAux false cs

/-- Python `re.sub(r'\s+', ' ', s)`: replace every maximal run of whitespace
characters by a single space. -/
def collapseWs (s : Str) : Str :=
  collapseAux false s

/-- `Command.truncate_title`: normalize whitespace, then cut to 197
characters plus an ellipsis when longer than 200. -/
def truncate_title (title : Str) : Str :=
  let clean_title := collapseWs (pyStrip title)
  if 200 < clean_title.length then clean_title.take 197 ++ "...".toList
  else clean_title

/-! ### Data model: users, categories, transactions, insights -/

/-- A row of the `User` table (the fields the pipeline reads). -/
structure UserRec where
  id : Nat
  username : Str
  is_active : Bool
deriving DecidableEq

/-- A row of the `Category` table: `name` plus owning user. -/
structure Category where
  id : Nat
  userId : Nat
  name : Str
deriving DecidableEq

/-- A row of the `Transaction` table: amount, date (as a day number, so the
`timedelta(days=30)` arithmetic is integer subtraction), category and owner. -/
structure Transaction where
  userId : Nat
  categoryId : Nat
  amount : ℚ
  date : Int
deriving DecidableEq

/-- A persisted `Insight` row. `date_posted` is a day number used only for
ordering (`latest('date_posted')`, `order_by('-date_posted')`). -/
structure Insight where
  title : Str
  content : Str
  userId : Nat
  is_automated : Bool
  date_posted : Nat
deriving DecidableEq

/-- The metrics dict returned by `calculate_user_financial_metrics`. -/
structure FinancialMetrics where
  username : Str
  total_income : ℚ
  total_expenses : ℚ
  total_savings : ℚ
  total_investments : ℚ
  savings_rate : ℚ
  net_income : ℚ
  debt_to_income_ratio : ℚ
deriving DecidableEq

/-! ### Metrics aggregator -/

/-- Substring test on character lists (Python `in` / SQL `LIKE %kw%`). -/
def containsSub (needle hay : Str) : Bool :=
  decide (needle <:+: hay)

/-- Lower-casing, for `icontains` (case-insensitive containment). -/
def lowerStr (s : Str) : Str :=
  s.map Char.toLower

/-- Django `name__icontains=kw`: the lower-cased name contains the
lower-cased keyword as a substring. -/
def icontains (name kw : Str) : Bool :=
  containsSub (lowerStr kw) (lowerStr name)

/-- `Category.objects.filter(user=user, name__icontains=kw).values_list('id')`:
the ids of the user's categories whose name contains `kw`. -/
def bucketCategoryIds (cats : List Category) (u : UserRec) (kw : Str) : List Nat :=
  (cats.filter fun c => c.userId == u.id && icontains c.name kw).map Category.id

/-- `Transaction.objects.filter(user=user, category__id__in=ids,
date__gte=since).aggregate(Sum('amount'))` with the `or 0` default: only the
lower date bound is applied. -/
def bucketTotal (txs : List Transaction) (u : UserRec) (ids : List Nat)
    (since : Int) : ℚ :=
  ((txs.filter fun t =>
      t.userId == u.id && ids.contains t.categoryId && decide (since ≤ t.date)).map
    Transaction.amount).sum

/-- `Command.calculate_user_financial_metrics`, with `today` the invocation
date (`timezone.now().date()`). -/
def calculate_user_financial_metrics (cats : List Category)
    (txs : List Transaction) (u : UserRec) (today : Int) : FinancialMetrics :=
  let thirty_days_ago := today - 30
  let income_categories := bucketCategoryIds cats u "income".toList
  let expense_categories := bucketCategoryIds cats u "expense".toList
  let savings_categories := bucketCategoryIds cats u "savings".toList
  let investment_categories := bucketCategoryIds cats u "investment".toList
  let total_income := bucketTotal txs u income_categories thirty_days_ago
  let total_expenses := bucketTotal txs u expense_categories thirty_days_ago
  let total_savings := bucketTotal txs u savings_categories thirty_days_ago
  let total_investments := bucketTotal txs u investment_categories thirty_days_ago
  let net_income := total_income - total_expenses
  let savings_rate := if 0 < total_income then total_savings / total_income * 100 else 0
  let debt_to_income_ratio :=
    if 0 < total_income then (total_expenses - total_savings) / total_income * 100 else 0
  { username := u.username
    total_income := total_income
    total_expenses := total_expenses
    total_savings := total_savings
    total_investments := total_investments
    savings_rate := savings_rate
    net_income := net_income
    debt_to_income_ratio := debt_to_income_ratio }

/-- The bucket membership test the queries implement, phrased directly on a
transaction: owned by the user, dated on or after `since`, and belonging to
some category of the user whose name matches the bucket keyword. -/
def txInBucket (cats : List Category) (u : UserRec) (kw : Str) (since : Int)
    (t : Transaction) : Bool :=
  t.userId == u.id && decide (since ≤ t.date) &&
    cats.any fun c => c.userId == u.id && icontains c.name kw && c.id == t.categoryId

/-- The bucket total the CLAIM describes (for comparison with the code):
identical to `txInBucket` except that the transaction date must also satisfy
the upper bound `date ≤ today` of the window `[today − 30, today]`. -/
def claimBucketTotal (cats : List Category) (txs : List Transaction)
    (u : UserRec) (kw : Str) (today : Int) : ℚ :=
  ((txs.filter fun t =>
      txInBucket cats u kw (today - 30) t && decide (t.date ≤ today)).map
    Transaction.amount).sum

/-! ### External context fetcher

Each upstream HTTP interaction is an oracle value describing what the call
produced; the fetch functions below are the exception-free value-level
residue of the source's `try`/`except` blocks. -/

/-- Upstream behaviour of the RapidAPI inflation call: the connection/read
can raise, `json.loads` can raise, the JSON can lack a "rate" field, or a
numeric rate is delivered. (The source never checks the status code of this
call; an error response lands in one of the failure shapes.) -/
inductive InflationResp where
  | connError
  | malformedBody
  | missingRate
  | okRate (r : ℚ)
deriving DecidableEq

/-- `Command.fetch_inflation_rate_africa`: the rate if present, 0 on every
failure shape (logged and swallowed in the source). -/
def fetch_inflation_rate_africa : InflationResp → ℚ
  | .okRate r => r
  | .connError => 0
  | .malformedBody => 0
  | .missingRate => 0

/-- Upstream behaviour of the Alpha Vantage call: exception, non-200 status,
unparseable JSON, JSON without "Weekly Time Series", a series whose latest
entry has a malformed "4. close" (the `float()` raises), or a parsed series
of (date-key, close) entries. -/
inductive AVResp where
  | connError
  | non200 (code : Nat)
  | malformedJson
  | noSeries
  | badClose
  | series (entries : List (Str × ℚ))
deriving DecidableEq

/-- Upstream behaviour of the Polygon call: exception, non-200 status,
unparseable JSON, missing/empty "results", or a first result whose "c" field
is present or absent (`results[0].get("c", 0)`). -/
inductive PolyResp where
  | connError
  | non200 (code : Nat)
  | malformedJson
  | noResults
  | results (c : Option ℚ)
deriving DecidableEq

/-- Python `max(keys)` on date strings: lexicographically smaller by code
point. -/
def strLt : Str → Str → Bool
  | [], [] => false
  | [], _ :: _ => true
  | _ :: _, [] => false
  | a :: as, b :: bs =>
    if a.val < b.val then true
    else if b.val < a.val then false
    else strLt as bs

/-- The entry whose date key is `max(data["Weekly Time Series"].keys())`;
`none` when the series is empty (where the source's `max()` raises). -/
def maxKeyEntry (entries : List (Str × ℚ)) : Option (Str × ℚ) :=
  entries.foldl
    (fun acc e =>
      match acc with
      | none => some e
      | some m => if strLt m.1 e.1 then some e else some m)
    none

/-- `Command.fallback_to_polygon_api`: the first result's closing value,
with 0 for a missing field and 0 on every failure shape. -/
def fallback_to_polygon_api : PolyResp → ℚ
  | .results (some c) => c
  | .results none => 0
  | .noResults => 0
  | .non200 _ => 0
  | .malformedJson => 0
  | .connError => 0

/-- `Command.fetch_stock_market_index`: latest close from Alpha Vantage,
falling back to Polygon on any failure (non-200, missing series, exception,
or the `max()` of an empty series raising). -/
def fetch_stock_market_index (av : AVResp) (poly : PolyResp) : ℚ :=
  match av with
  | .series entries =>
    match maxKeyEntry entries with
    | some e => e.2
    | none => fallback_to_polygon_api poly
  | .noSeries => fallback_to_polygon_api poly
  | .non200 _ => fallback_to_polygon_api poly
  | .badClose => fallback_to_polygon_api poly
  | .malformedJson => fallback_to_polygon_api poly
  | .connError => fallback_to_polygon_api poly

/-- The `external_data` dict. The fields are `Option` because downstream
code reads them with `dict.get(key, 'N/A')`: `none` models an absent key
(the dict `{}` of `fetch_external_data`'s own `except` arm). -/
structure ExternalData where
  inflation_rate : Option ℚ
  stock_index : Option ℚ
deriving DecidableEq

/-- `Command.fetch_external_data`: both fetches in sequence. The inner
fetchers swallow all failures themselves, so the outer `except` (which would
return `{}`) is unreachable and both keys are always populated. -/
def fetch_external_data (i : InflationResp) (av : AVResp) (p : PolyResp) :
    ExternalData :=
  { inflation_rate := some (fetch_inflation_rate_africa i)
    stock_index := some (fetch_stock_market_index av p) }

/-- The inflation call failed to deliver a rate. -/
def inflationFailed : InflationResp → Bool
  | .okRate _ => false
  | _ => true

/-- The Alpha Vantage call failed to deliver a latest close. -/
def avFailed : AVResp → Bool
  | .series entries => (maxKeyEntry entries).isNone
  | _ => true

/-- The Polygon call failed to deliver a closing value. -/
def polyFailed : PolyResp → Bool
  | .results (some _) => false
  | _ => true

/-! ### Number formatting for the prompt -/

/-- Round to the nearest integer, ties to even: the rounding of Python's
`.2f` formatting (applied to the value scaled by 100). -/
def roundHalfEven (q : ℚ) : Int :=
  let f := ⌊q⌋
  let r := q - (f : ℚ)
  if r < 1/2 then f
  else if 1/2 < r then f + 1
  else if f % 2 = 0 then f else f + 1

/-- Python `f"{q:.2f}"`: optional sign, integer digits, a dot, and exactly
two fractional digits, after half-even rounding at two decimals. -/
def fmt2 (q : ℚ) : Str :=
  let n := roundHalfEven (q * 100)
  let a := n.natAbs
  (if q < 0 then ['-'] else []) ++ Nat.toDigits 10 (a / 100) ++
    ['.', Nat.digitChar (a % 100 / 10), Nat.digitChar (a % 10)]

/-- Rendering of a JSON numeric value interpolated without a format spec
(Python `str`). No claim inspects this text — only that it is what appears
when the value is present — so the embedding renders `num/den` digits. -/
def pyRepr (q : ℚ) : Str :=
  (if q < 0 then ['-'] else []) ++ Nat.toDigits 10 q.num.natAbs ++
    (if q.den = 1 then [] else '/' :: Nat.toDigits 10 q.den)

/-- `external_data.get(key, 'N/A')` as interpolated into the f-strings. -/
def showExternalVal : Option ℚ → Str
  | none => "N/A".toList
  | some v => pyRepr v

/-! ### Narrative generator -/

/-- The prompt f-string of `generate_personalized_insight`, transcribed
segment by segment around the interpolated values. -/
def insight_prompt (m : FinancialMetrics) (ext : ExternalData) : Str :=
  "\n            Generate a personalized financial insight for ".toList ++
  m.username ++
  " based on the following data:\n\n            User Financial Metrics:\n            - Monthly Income: $".toList ++
  fmt2 m.total_income ++
  "\n            - Monthly Expenses: $".toList ++
  fmt2 m.total_expenses ++
  "\n            - Net Monthly Income: $".toList ++
  fmt2 m.net_income ++
  "\n            - Monthly Savings: $".toList ++
  fmt2 m.total_savings ++
  "\n            - Monthly Investments: $".toList ++
  fmt2 m.total_investments ++
  "\n            - Savings Rate: ".toList ++
  fmt2 m.savings_rate ++
  "%\n            - Debt-to-Income Ratio: ".toList ++
  fmt2 m.debt_to_income_ratio ++
  "%\n\n            External Economic Context:\n            - Inflation Rate: ".toList ++
  showExternalVal ext.inflation_rate ++
  "%\n            - Stock Market Index: ".toList ++
  showExternalVal ext.stock_index ++
  "\n\n            Provide a concise, actionable financial insight that:\n            1. Highlights the user\x27s current financial health in relation to external factors.\n            2. Offers specific, personalized advice tailored to their financial situation.\n            3. Suggests potential improvements considering current economic conditions.\n            4. Uses a supportive and motivational tone.\n            5. Ensure the title is clear and succinct (under 200 characters).\n\n            Include both generic and personalized advice where applicable.\n            ".toList

/-- The static fallback title of `generate_fallback_insight`. -/
def fallback_title : Str :=
  "Essential Financial Wellness Tips".toList

/-- The fallback content f-string of `generate_fallback_insight`, with the
two external values interpolated. -/
def fallback_content (ext : ExternalData) : Str :=
  "\n        Key Financial Management Principles:\n        1. Budgeting Fundamentals\n        - Track income and expenses regularly.\n        - Follow the 50/30/20 rule (needs/wants/savings).\n        - Review and adjust budget monthly.\n\n        2. Smart Saving Strategies\n        - Build an emergency fund (3-6 months of expenses).\n        - Automate savings transfers.\n        - Look for high-yield savings accounts.\n\n        3. Debt Management\n        - Prioritize high-interest debt repayment.\n        - Consider debt consolidation options.\n        - Maintain a good credit score.\n\n        4. Investment Basics\n        - Diversify your investment portfolio.\n        - Start retirement planning early.\n        - Consider low-cost index funds.\n\n        External Economic Context:\n        - Current Inflation Rate: ".toList ++
  showExternalVal ext.inflation_rate ++
  "%\n        - Stock Market Index: ".toList ++
  showExternalVal ext.stock_index ++
  "\n\n        Remember: Financial stability comes from consistent habits and informed decisions. Adjust your strategies based on current economic conditions.\n        ".toList

/-- `Command.generate_fallback_insight`: static title and templated content
(the metrics argument is accepted but unused, as in the source). -/
def generate_fallback_insight (_metrics : FinancialMetrics)
    (ext : ExternalData) : Str × Str :=
  (fallback_title, fallback_content ext)

/-- Behaviour of the text-generation service for one call: either the call
chain `model.generate_content(...)`/`response.candidates[0].content.parts[0].text`
raises, or it yields the generated text (possibly empty). -/
inductive GenResponse where
  | failure
  | text (s : Str)
deriving DecidableEq

/-- Python `s.split('\n')` (never returns an empty list; `''` gives `['']`). -/
def splitNl : Str → List Str
  | [] => [[]]
  | c :: cs =>
    if c = '\n' then [] :: splitNl cs
    else
      match splitNl cs with
      | [] => [[c]]
      | h :: t => (c :: h) :: t

/-- `Command.generate_personalized_insight`: on a delivered text, the first
line is the title and the remaining lines re-joined are the content; any
exception falls through to the fallback insight. (The prompt built and sent
before the call is `insight_prompt`.) -/
def generate_personalized_insight (metrics : FinancialMetrics)
    (ext : ExternalData) (resp : GenResponse) : Str × Str :=
  match resp with
  | .failure => generate_fallback_insight metrics ext
  | .text s =>
    let lines := splitNl s
    let title := lines.headD []
    let content := List.intercalate ['\n'] lines.tail
    (title, content)

/-! ### Insight recorder and orchestrator -/

/-- The shared per-user body of `handle`'s batch loop and of
`generate_user_insight`: compute metrics, generate (or fall back), truncate
the title, and, only when both title and content are truthy (non-empty),
produce the row payload to persist. -/
def insightPayload (cats : List Category) (txs : List Transaction)
    (today : Int) (ext : ExternalData) (u : UserRec) (resp : GenResponse) :
    Option (Str × Str) :=
  let metrics := calculate_user_financial_metrics cats txs u today
  let tc := generate_personalized_insight metrics ext resp
  let insight_title := truncate_title tc.1
  if insight_title ≠ [] ∧ tc.2 ≠ [] then some (insight_title, tc.2) else none

/-- Result of a batch run: the created rows and the `(username, error)`
pairs logged by the per-user `except` arm. -/
structure BatchState where
  insights : List Insight
  logs : List (Str × Str)
deriving DecidableEq

/-- One iteration of `handle`'s loop over active users. `beh u` says whether
processing `u` raised somewhere outside the generation call's own
`try`/`except` (`.error msg`), or completed with the generation service
behaving as `resp` (`.ok resp`). -/
def handleUserStep (cats : List Category) (txs : List Transaction)
    (today : Int) (ext : ExternalData)
    (beh : UserRec → Except Str GenResponse) (st : BatchState) (u : UserRec) :
    BatchState :=
  match beh u with
  | .error e => { st with logs := st.logs ++ [(u.username, e)] }
  | .ok resp =>
    match insightPayload cats txs today ext u resp with
    | some tc =>
      { st with insights := st.insights ++ [⟨tc.1, tc.2, u.id, true, 0⟩] }
    | none => st

/-- The batch arm of `Command.handle` (no `--user` argument): iterate all
active users, isolating per-user failures. -/
def handle_all_users (cats : List Category) (txs : List Transaction)
    (today : Int) (ext : ExternalData) (users : List UserRec)
    (beh : UserRec → Except Str GenResponse) : BatchState :=
  (users.filter UserRec.is_active).foldl
    (handleUserStep cats txs today ext beh) ⟨[], []⟩

/-- `Command.generate_user_insight` acting on the insight store: appends an
`is_automated = false` row dated `now` when a payload is produced; any
exception is caught and logged, leaving the store unchanged. -/
def generate_user_insight (cats : List Category) (txs : List Transaction)
    (today : Int) (ext : ExternalData) (store : List Insight) (u : UserRec)
    (beh : Except Str GenResponse) (now : Nat) : List Insight :=
  match beh with
  | .error _ => store
  | .ok resp =>
    match insightPayload cats txs today ext u resp with
    | some tc => store ++ [⟨tc.1, tc.2, u.id, false, now⟩]
    | none => store

/-- Django `Insight.objects.filter(user=..., is_automated=False)
.latest('date_posted')`: the stored non-automated insight of the user with
the greatest `date_posted`, or `none` (`Insight.DoesNotExist`) if there is
none. -/
def latestPick (acc : Option Insight) (i : Insight) : Option Insight :=
  match acc with
  | none => some i
  | some m => if m.date_posted < i.date_posted then some i else some m

def latest_insight (store : List Insight) (uid : Nat) : Option Insight :=
  (store.filter fun i => i.userId == uid && !i.is_automated).foldl latestPick none

/-- `GeneratePersonalInsightView.create`: run the on-demand generation for
the authenticated caller, then return the newest non-automated insight for
them, or a 400 error (`.error ()`) when `latest` raises `DoesNotExist`. -/
def generate_personal_insight_create (cats : List Category)
    (txs : List Transaction) (today : Int) (ext : ExternalData)
    (store : List Insight) (u : UserRec) (beh : Except Str GenResponse)
    (now : Nat) : List Insight × Except Unit Insight :=
  let store2 := generate_user_insight cats txs today ext store u beh now
  match latest_insight store2 u.id with
  | some ins => (store2, .ok ins)
  | none => (store2, .error ())

/-! ### Insight listing -/

/-- Insertion step for sorting by `-date_posted`. -/
def insertByDateDesc (i : Insight) : List Insight → List Insight
  | [] => [i]
  | j :: js =>
    if j.date_posted < i.date_posted then i :: j :: js
    else j :: insertByDateDesc i js

/-- `Insight.objects.order_by('-date_posted')`. -/
def orderByDatePostedDesc (store : List Insight) : List Insight :=
  store.foldr insertByDateDesc []

/-- The body of `InsightViewSet.list`'s response. -/
structure InsightListResponse where
  results : List Insight
  page : Nat
  total_pages : Nat
  total_items : Nat
deriving DecidableEq

/-- `InsightViewSet.list` (cache aside): page size from the global row
count, then a slice of the globally ordered table; the requesting user is
accepted (the view is authenticated) but never used as a filter. -/
def insight_list (store : List Insight) (requester : UserRec) (page : Nat) :
    InsightListResponse :=
  let page_size0 := min 6 store.length
  let page_size := if page_size0 = 0 then 1 else page_size0
  let offset := (page - 1) * page_size
  let insights := ((orderByDatePostedDesc store).drop offset).take page_size
  { results := insights
    page := page
    total_pages := (store.length + page_size - 1) / page_size
    total_items := store.length }

/-! ## Theorems -/

/-! ### C4: title normalization -/

theorem collapseAux_of_no_space :
    ∀ (s : Str) (b : Bool), (∀ c ∈ s, ¬ pyIsSpace c) → collapseAux b s = s := by
  intro s
  induction s with
  | nil => intro b h; rfl
  | cons c cs ih =>
    intro b h
    rw [collapseAux, if_neg (by simpa using h c (by simp))]
    exact congrArg (c :: ·) (ih false fun x hx => h x (by simp [hx]))

theorem collapseWs_of_no_space {s : Str} (h : ∀ c ∈ s, ¬ pyIsSpace c) :
    collapseWs s = s :=
  collapseAux_of_no_space s false h

theorem pyStrip_of_no_space {s : Str} (h : ∀ c ∈ s, ¬ pyIsSpace c) :
    pyStrip s = s := by
  have h1 : s.dropWhile pyIsSpace = s :=
    List.dropWhile_eq_self_iff.mpr fun hl => by
      simpa using h _ (s.get_mem 0 hl)
  have h2 : s.reverse.dropWhile pyIsSpace = s.reverse :=
    List.dropWhile_eq_self_iff.mpr fun hl => by
      have : s.reverse.get ⟨0, hl⟩ ∈ s := by
        have := s.reverse.get_mem 0 hl
        rwa [List.mem_reverse] at this
      simpa using h _ this
  rw [pyStrip, h1, h2, List.reverse_reverse]

/-- C4: the normalized title never exceeds 200 characters; an over-long
title made of non-collapsible characters is cut to exactly 200 characters
ending in the ellipsis. -/
theorem truncate_title_spec (t : Str) :
    (truncate_title t).length ≤ 200 ∧
    ((∀ c ∈ t, ¬ pyIsSpace c) → 200 < t.length →
      (truncate_title t).length = 200 ∧ "...".toList <:+ truncate_title t) := by
  constructor
  · unfold truncate_title
    by_cases h : 200 < (collapseWs (pyStrip t)).length
    · rw [if_pos h]
      have h3 : ("...".toList).length = 3 := by decide
      simp only [List.length_append, List.length_take]
      omega
    · rw [if_neg h]; omega
  · intro hns hlen
    have hclean : collapseWs (pyStrip t) = t := by
      rw [pyStrip_of_no_space hns, collapseWs_of_no_space hns]
    unfold truncate_title
    rw [hclean, if_pos hlen]
    refine ⟨?_, ⟨t.take 197, rfl⟩⟩
    simp [Nat.min_eq_left (by omega : 197 ≤ t.length)]

set_option maxRecDepth 4000 in
/-- Witness for C4 at a concrete 201-character title of letters. -/
theorem truncate_title_spec_witness :
    (truncate_title (List.replicate 201 'a')).length ≤ 200 ∧
      (truncate_title (List.replicate 201 'a')).length = 200 ∧
      "...".toList <:+ truncate_title (List.replicate 201 'a') :=
  ⟨(truncate_title_spec (List.replicate 201 'a')).1,
    ((truncate_title_spec (List.replicate 201 'a')).2 (by decide) (by decide)).1,
    ((truncate_title_spec (List.replicate 201 'a')).2 (by decide) (by decide)).2⟩

/-! ### C3: derived ratios -/

/-- C3: the derived metrics guard division by zero and otherwise use the
exact rational formulas of the source. -/
theorem metrics_ratios_spec (cats : List Category) (txs : List Transaction)
    (u : UserRec) (today : Int) :
    ((calculate_user_financial_metrics cats txs u today).total_income = 0 →
      (calculate_user_financial_metrics cats txs u today).savings_rate = 0 ∧
      (calculate_user_financial_metrics cats txs u today).debt_to_income_ratio = 0) ∧
    (0 < (calculate_user_financial_metrics cats txs u today).total_income →
      (calculate_user_financial_metrics cats txs u today).savings_rate =
        (calculate_user_financial_metrics cats txs u today).total_savings /
          (calculate_user_financial_metrics cats txs u today).total_income * 100 ∧
      (calculate_user_financial_metrics cats txs u today).debt_to_income_ratio =
        ((calculate_user_financial_metrics cats txs u today).total_expenses -
            (calculate_user_financial_metrics cats txs u today).total_savings) /
          (calculate_user_financial_metrics cats txs u today).total_income * 100 ∧
      (calculate_user_financial_metrics cats txs u today).net_income =
        (calculate_user_financial_metrics cats txs u today).total_income -
          (calculate_user_financial_metrics cats txs u today).total_expenses) := by
  simp only [calculate_user_financial_metrics]
  constructor
  · intro h
    rw [h]
    simp
  · intro h
    rw [if_pos h, if_pos h]
    simp

/-- Witness for C3: a user with no transactions at all has zero income, and
both ratios are zero. -/
theorem metrics_ratios_spec_witness :
    (calculate_user_financial_metrics [] [] ⟨7, "u".toList, true⟩ 0).total_income = 0 ∧
      (calculate_user_financial_metrics [] [] ⟨7, "u".toList, true⟩ 0).savings_rate = 0 ∧
      (calculate_user_financial_metrics [] [] ⟨7, "u".toList, true⟩ 0).debt_to_income_ratio = 0 :=
  ⟨by decide,
    (metrics_ratios_spec [] [] ⟨7, "u".toList, true⟩ 0).1 (by decide)⟩

/-! ### C8: category classification -/

theorem mem_bucketCategoryIds (cats : List Category) (u : UserRec) (kw : Str)
    (x : Nat) :
    x ∈ bucketCategoryIds cats u kw ↔
      ∃ c ∈ cats, c.userId = u.id ∧ icontains c.name kw = true ∧ c.id = x := by
  simp only [bucketCategoryIds, List.mem_map, List.mem_filter, Bool.and_eq_true,
    beq_iff_eq]
  constructor
  · rintro ⟨c, ⟨hc, hu, hm⟩, hid⟩
    exact ⟨c, hc, hu, hm, hid⟩
  · rintro ⟨c, hc, hu, hm, hid⟩
    exact ⟨c, ⟨hc, hu, hm⟩, hid⟩

/-- C8 counterexample: a category named "Income Expense" is assigned to both
the income bucket and the expense bucket, so the classification is not a
partition and a category can land in more than one bucket. -/
theorem bucket_not_partition_counterexample :
    1 ∈ bucketCategoryIds [⟨1, 7, "Income Expense".toList⟩] ⟨7, "u".toList, true⟩
        "income".toList ∧
      1 ∈ bucketCategoryIds [⟨1, 7, "Income Expense".toList⟩] ⟨7, "u".toList, true⟩
        "expense".toList := by
  constructor <;> decide

/-- C8 amended: a category is assigned to every bucket whose keyword its
name contains case-insensitively (possibly several buckets, not at most
one); "Weekly Income Bonus" lands exactly in the income bucket and
"Groceries" in no bucket. -/
theorem bucket_classification_spec (cats : List Category) (u : UserRec)
    (kw : Str) (c : Category) (hc : c ∈ cats) (hu : c.userId = u.id) :
    (icontains c.name kw = true → c.id ∈ bucketCategoryIds cats u kw) ∧
    (c.id ∈ bucketCategoryIds cats u kw →
      ∃ d ∈ cats, d.userId = u.id ∧ icontains d.name kw = true ∧ d.id = c.id) := by
  constructor
  · intro hm
    exact (mem_bucketCategoryIds cats u kw c.id).mpr ⟨c, hc, hu, hm, rfl⟩
  · intro hmem
    exact (mem_bucketCategoryIds cats u kw c.id).mp hmem

/-- Witness for C8 at the spec's concrete examples: "Weekly Income Bonus"
is in the income bucket and in no other, and "Groceries" is in no bucket. -/
theorem bucket_classification_spec_witness :
    (⟨1, 7, "Weekly Income Bonus".toList⟩ : Category).id ∈
        bucketCategoryIds [⟨1, 7, "Weekly Income Bonus".toList⟩]
          ⟨7, "u".toList, true⟩ "income".toList ∧
      (1 ∉ bucketCategoryIds [⟨1, 7, "Weekly Income Bonus".toList⟩]
          ⟨7, "u".toList, true⟩ "expense".toList ∧
        1 ∉ bucketCategoryIds [⟨1, 7, "Weekly Income Bonus".toList⟩]
          ⟨7, "u".toList, true⟩ "savings".toList ∧
        1 ∉ bucketCategoryIds [⟨1, 7, "Weekly Income Bonus".toList⟩]
          ⟨7, "u".toList, true⟩ "investment".toList) ∧
      (2 ∉ bucketCategoryIds [⟨2, 7, "Groceries".toList⟩]
          ⟨7, "u".toList, true⟩ "income".toList ∧
        2 ∉ bucketCategoryIds [⟨2, 7, "Groceries".toList⟩]
          ⟨7, "u".toList, true⟩ "expense".toList ∧
        2 ∉ bucketCategoryIds [⟨2, 7, "Groceries".toList⟩]
          ⟨7, "u".toList, true⟩ "savings".toList ∧
        2 ∉ bucketCategoryIds [⟨2, 7, "Groceries".toList⟩]
          ⟨7, "u".toList, true⟩ "investment".toList) :=
  ⟨(bucket_classification_spec [⟨1, 7, "Weekly Income Bonus".toList⟩]
      ⟨7, "u".toList, true⟩ "income".toList ⟨1, 7, "Weekly Income Bonus".toList⟩
      (by decide) (by decide)).1 (by decide),
    ⟨by decide, by decide, by decide⟩,
    ⟨by decide, by decide, by decide, by decide⟩⟩

/-! ### C2: the aggregation window -/

theorem contains_bucketCategoryIds (cats : List Category) (u : UserRec)
    (kw : Str) (x : Nat) :
    (bucketCategoryIds cats u kw).contains x =
      cats.any fun c => c.userId == u.id && icontains c.name kw && c.id == x := by
  rw [Bool.eq_iff_iff]
  simp only [List.contains, List.elem_iff, List.any_eq_true, Bool.and_eq_true,
    beq_iff_eq]
  rw [mem_bucketCategoryIds]
  constructor
  · rintro ⟨c, hc, hu, hm, hid⟩
    exact ⟨c, hc, ⟨hu, hm⟩, hid⟩
  · rintro ⟨c, hc, ⟨hu, hm⟩, hid⟩
    exact ⟨c, hc, hu, hm, hid⟩

theorem bucketTotal_eq_txInBucket (cats : List Category) (txs : List Transaction)
    (u : UserRec) (kw : Str) (since : Int) :
    bucketTotal txs u (bucketCategoryIds cats u kw) since =
      ((txs.filter (txInBucket cats u kw since)).map Transaction.amount).sum := by
  unfold bucketTotal
  congr 1
  apply congrArg
  apply List.filter_congr
  intro t _
  rw [contains_bucketCategoryIds]
  unfold txInBucket
  cases h1 : t.userId == u.id <;>
    cases h2 : decide (since ≤ t.date) <;>
      simp [Bool.and_comm, Bool.and_assoc, Bool.and_left_comm]

theorem filterAmountSum_singleton (p : Transaction → Bool) (t : Transaction) :
    ((List.filter p [t]).map Transaction.amount).sum =
      if p t then t.amount else 0 := by
  by_cases h : p t <;> simp [List.filter, h]

/-- C2 counterexample: with today = 0, a single income transaction of 50
dated +1 (outside the claimed window since 1 > today) still contributes to
`total_income`, which the claim says must stay 0: the query only applies the
lower bound `date__gte`. -/
theorem window_upper_bound_counterexample :
    (calculate_user_financial_metrics [⟨1, 7, "Income".toList⟩]
          [⟨7, 1, 50, 1⟩] ⟨7, "u".toList, true⟩ 0).total_income = 50 ∧
      claimBucketTotal [⟨1, 7, "Income".toList⟩] [⟨7, 1, 50, 1⟩]
          ⟨7, "u".toList, true⟩ "income".toList 0 = 0 := by
  constructor
  · simp only [calculate_user_financial_metrics, bucketTotal]
    rw [filterAmountSum_singleton, if_pos (by decide)]
  · simp only [claimBucketTotal]
    rw [filterAmountSum_singleton, if_neg (by decide)]

/-- C2 amended: each bucket total sums exactly the user's transactions dated
on or after today − 30 (no upper bound is applied: future-dated transactions
also count) that belong to one of the user's categories matching that
bucket's keyword. -/
theorem metrics_window_spec (cats : List Category) (txs : List Transaction)
    (u : UserRec) (today : Int) :
    (calculate_user_financial_metrics cats txs u today).total_income =
        ((txs.filter (txInBucket cats u "income".toList (today - 30))).map
          Transaction.amount).sum ∧
      (calculate_user_financial_metrics cats txs u today).total_expenses =
        ((txs.filter (txInBucket cats u "expense".toList (today - 30))).map
          Transaction.amount).sum ∧
      (calculate_user_financial_metrics cats txs u today).total_savings =
        ((txs.filter (txInBucket cats u "savings".toList (today - 30))).map
          Transaction.amount).sum ∧
      (calculate_user_financial_metrics cats txs u today).total_investments =
        ((txs.filter (txInBucket cats u "investment".toList (today - 30))).map
          Transaction.amount).sum := by
  refine ⟨?_, ?_, ?_, ?_⟩ <;>
    simpa [calculate_user_financial_metrics] using
      bucketTotal_eq_txInBucket cats txs u _ (today - 30)

/-! ### C5: external context fetcher -/

theorem append_left_ne_nil {α : Type} {a : List α} (b : List α) (h : a ≠ []) :
    a ++ b ≠ [] := by
  cases a with
  | nil => exact absurd rfl h
  | cons x xs => simp

theorem fallback_content_ne_nil (ext : ExternalData) :
    fallback_content ext ≠ [] := by
  unfold fallback_content
  apply append_left_ne_nil
  apply append_left_ne_nil
  apply append_left_ne_nil
  apply append_left_ne_nil
  decide

theorem insightPayload_failure_isSome (cats : List Category)
    (txs : List Transaction) (today : Int) (ext : ExternalData) (u : UserRec) :
    (insightPayload cats txs today ext u .failure).isSome = true := by
  have ht : truncate_title fallback_title = fallback_title := by decide
  simp only [insightPayload, generate_personalized_insight,
    generate_fallback_insight]
  rw [if_pos ⟨by rw [ht]; decide, fallback_content_ne_nil ext⟩]
  rfl

/-- C5: each fetch is a total function of the upstream behaviour (the
source's `try`/`except` absorbs every exception), and whenever the inflation
call, the Alpha Vantage call and the Polygon call all fail, both external
fields are the sentinel 0 — and the pipeline still records an insight for
the user (here along the generation-failure path, which produces the
fallback payload). -/
theorem fetch_external_data_total_failure (i : InflationResp) (av : AVResp)
    (p : PolyResp) (h1 : inflationFailed i = true) (h2 : avFailed av = true)
    (h3 : polyFailed p = true) :
    fetch_external_data i av p = ⟨some 0, some 0⟩ ∧
      ∀ (cats : List Category) (txs : List Transaction) (u : UserRec)
        (today : Int),
        (insightPayload cats txs today (fetch_external_data i av p) u
            .failure).isSome = true := by
  have hpoly : fallback_to_polygon_api p = 0 := by
    cases p with
    | results c =>
      cases c with
      | none => rfl
      | some v => exact absurd h3 (by simp [polyFailed])
    | connError => rfl
    | non200 code => rfl
    | malformedJson => rfl
    | noResults => rfl
  have hinfl : fetch_inflation_rate_africa i = 0 := by
    cases i with
    | okRate r => exact absurd h1 (by simp [inflationFailed])
    | connError => rfl
    | malformedBody => rfl
    | missingRate => rfl
  have hstock : fetch_stock_market_index av p = 0 := by
    cases av with
    | series entries =>
      have hnone : maxKeyEntry entries = none := by
        simpa [avFailed, Option.isNone_iff_eq_none] using h2
      simp [fetch_stock_market_index, hnone, hpoly]
    | connError => simpa [fetch_stock_market_index] using hpoly
    | non200 code => simpa [fetch_stock_market_index] using hpoly
    | malformedJson => simpa [fetch_stock_market_index] using hpoly
    | noSeries => simpa [fetch_stock_market_index] using hpoly
    | badClose => simpa [fetch_stock_market_index] using hpoly
  refine ⟨?_, fun cats txs u today => insightPayload_failure_isSome _ _ _ _ _⟩
  simp [fetch_external_data, hinfl, hstock]

/-- Witness for C5: all three upstream calls raise connection errors. -/
theorem fetch_external_data_total_failure_witness :
    fetch_external_data .connError .connError .connError = ⟨some 0, some 0⟩ ∧
      (insightPayload [] [] 0 (fetch_external_data .connError .connError .connError)
          ⟨7, "u".toList, true⟩ .failure).isSome = true := by
  have h := fetch_external_data_total_failure .connError .connError .connError
    (by decide) (by decide) (by decide)
  exact ⟨h.1, h.2 [] [] ⟨7, "u".toList, true⟩ 0⟩

/-! ### C1: generation failure and the fallback narrative -/

/-- C1 counterexample: when the generation service delivers the empty
string, parsing succeeds with an empty title and empty content — not the
fallback narrative — and the recorder's truthiness guard then skips the
`Insight.objects.create`, so no row is recorded. -/
theorem empty_generation_counterexample :
    generate_personalized_insight ⟨"u".toList, 0, 0, 0, 0, 0, 0, 0⟩
        ⟨some 0, some 0⟩ (.text []) = ([], []) ∧
      generate_personalized_insight ⟨"u".toList, 0, 0, 0, 0, 0, 0, 0⟩
          ⟨some 0, some 0⟩ (.text []) ≠
        generate_fallback_insight ⟨"u".toList, 0, 0, 0, 0, 0, 0, 0⟩
          ⟨some 0, some 0⟩ ∧
      insightPayload [] [] 0 ⟨some 0, some 0⟩ ⟨7, "u".toList, true⟩
          (.text []) = none := by
  refine ⟨rfl, ?_, ?_⟩
  · decide
  · decide

/-- C1 amended: whenever the generation call (or access to its response)
raises, the generator returns exactly the fallback title and content and the
recorder persists a row carrying them (the fallback title passes truncation
unchanged and both parts are non-empty); no error propagates.  An
empty-string response, however, is parsed into an empty title and content
and no row is recorded. -/
theorem generation_failure_spec (m : FinancialMetrics) (ext : ExternalData) :
    generate_personalized_insight m ext .failure =
        generate_fallback_insight m ext ∧
      ∀ (cats : List Category) (txs : List Transaction) (u : UserRec)
        (today : Int),
        insightPayload cats txs today ext u .failure =
          some (fallback_title, fallback_content ext) := by
  have ht : truncate_title fallback_title = fallback_title := by decide
  refine ⟨rfl, fun cats txs u today => ?_⟩
  simp only [insightPayload, generate_personalized_insight,
    generate_fallback_insight]
  rw [if_pos ⟨by rw [ht]; decide, fallback_content_ne_nil ext⟩, ht]

/-! ### C6: the prompt embeds the metrics and the N/A markers -/

theorem infix_extend_left {l m : Str} (pre : Str) (h : l <:+: m) :
    l <:+: pre ++ m :=
  h.trans (List.suffix_append pre m).isInfix

theorem infix_two_prefix (x y rest : Str) : x ++ y <:+: x ++ (y ++ rest) :=
  List.IsPrefix.isInfix ⟨rest, by simp [List.append_assoc]⟩

theorem infix_three_prefix (x y z rest : Str) :
    x ++ (y ++ z) <:+: x ++ (y ++ (z ++ rest)) :=
  List.IsPrefix.isInfix ⟨rest, by simp [List.append_assoc]⟩

theorem digitChar_isDigit {n : Nat} (h : n < 10) :
    (Nat.digitChar n).isDigit = true := by
  interval_cases n <;> decide

theorem fmt2_two_decimals (q : ℚ) :
    ∃ pre d1 d2, fmt2 q = pre ++ ['.', d1, d2] ∧
      d1.isDigit = true ∧ d2.isDigit = true := by
  refine ⟨(if q < 0 then ['-'] else []) ++
      Nat.toDigits 10 ((roundHalfEven (q * 100)).natAbs / 100),
    Nat.digitChar ((roundHalfEven (q * 100)).natAbs % 100 / 10),
    Nat.digitChar ((roundHalfEven (q * 100)).natAbs % 10), ?_,
    digitChar_isDigit (by omega), digitChar_isDigit (by omega)⟩
  simp [fmt2]

/-- C6: every currency metric is embedded in the prompt through the
two-decimal formatter `fmt2` (whose output always ends in a dot and exactly
two digits), and whenever the external dict lacks the inflation rate or the
stock index, the prompt carries the literal "N/A" marker in that slot. -/
theorem insight_prompt_spec (m : FinancialMetrics) (ext : ExternalData) :
    (∀ q : ℚ, ∃ pre d1 d2, fmt2 q = pre ++ ['.', d1, d2] ∧
      d1.isDigit = true ∧ d2.isDigit = true) ∧
    fmt2 m.total_income <:+: insight_prompt m ext ∧
    fmt2 m.total_expenses <:+: insight_prompt m ext ∧
    fmt2 m.net_income <:+: insight_prompt m ext ∧
    fmt2 m.total_savings <:+: insight_prompt m ext ∧
    fmt2 m.total_investments <:+: insight_prompt m ext ∧
    fmt2 m.savings_rate <:+: insight_prompt m ext ∧
    fmt2 m.debt_to_income_ratio <:+: insight_prompt m ext ∧
    (ext.inflation_rate = none →
      "Inflation Rate: N/A%".toList <:+: insight_prompt m ext) ∧
    (ext.stock_index = none →
      "Stock Market Index: N/A".toList <:+: insight_prompt m ext) := by
  refine ⟨fmt2_two_decimals, ?_, ?_, ?_, ?_, ?_, ?_, ?_, ?_, ?_⟩
  case _ =>
    unfold insight_prompt
    simp only [List.append_assoc]
    repeat first
      | exact (List.prefix_append _ _).isInfix
      | apply infix_extend_left
  case _ =>
    unfold insight_prompt
    simp only [List.append_assoc]
    repeat first
      | exact (List.prefix_append _ _).isInfix
      | apply infix_extend_left
  case _ =>
    unfold insight_prompt
    simp only [List.append_assoc]
    repeat first
      | exact (List.prefix_append _ _).isInfix
      | apply infix_extend_left
  case _ =>
    unfold insight_prompt
    simp only [List.append_assoc]
    repeat first
      | exact (List.prefix_append _ _).isInfix
      | apply infix_extend_left
  case _ =>
    unfold insight_prompt
    simp only [List.append_assoc]
    repeat first
      | exact (List.prefix_append _ _).isInfix
      | apply infix_extend_left
  case _ =>
    unfold insight_prompt
    simp only [List.append_assoc]
    repeat first
      | exact (List.prefix_append _ _).isInfix
      | apply infix_extend_left
  case _ =>
    unfold insight_prompt
    simp only [List.append_assoc]
    repeat first
      | exact (List.prefix_append _ _).isInfix
      | apply infix_extend_left
  case _ =>
    intro h
    unfold insight_prompt
    rw [h]
    simp only [showExternalVal]
    have htgt : ("Inflation Rate: N/A%".toList : Str) =
        "Inflation Rate: ".toList ++ ("N/A".toList ++ ['%']) := by decide
    have h9 : ("%\n\n            External Economic Context:\n            - Inflation Rate: ".toList : Str) =
        "%\n\n            External Economic Context:\n            - ".toList ++
          "Inflation Rate: ".toList := by decide
    have h10 : ("%\n            - Stock Market Index: ".toList : Str) =
        ['%'] ++ "\n            - Stock Market Index: ".toList := by decide
    rw [htgt, h9, h10]
    simp only [List.append_assoc]
    repeat first
      | exact infix_three_prefix _ _ _ _
      | apply infix_extend_left
  case _ =>
    intro h
    unfold insight_prompt
    rw [h]
    simp only [showExternalVal]
    have htgt : ("Stock Market Index: N/A".toList : Str) =
        "Stock Market Index: ".toList ++ "N/A".toList := by decide
    have h10 : ("%\n            - Stock Market Index: ".toList : Str) =
        "%\n            - ".toList ++ "Stock Market Index: ".toList := by decide
    rw [htgt, h10]
    simp only [List.append_assoc]
    repeat first
      | exact infix_two_prefix _ _ _
      | apply infix_extend_left

/-- Witness for C6: a metrics record of zeros and an external dict missing
both keys; both "N/A" markers appear in the prompt. -/
theorem insight_prompt_spec_witness :
    ("Inflation Rate: N/A%".toList <:+:
        insight_prompt ⟨"u".toList, 0, 0, 0, 0, 0, 0, 0⟩ ⟨none, none⟩) ∧
      ("Stock Market Index: N/A".toList <:+:
        insight_prompt ⟨"u".toList, 0, 0, 0, 0, 0, 0, 0⟩ ⟨none, none⟩) :=
  ⟨(insight_prompt_spec ⟨"u".toList, 0, 0, 0, 0, 0, 0, 0⟩
      ⟨none, none⟩).2.2.2.2.2.2.2.2.1 rfl,
    (insight_prompt_spec ⟨"u".toList, 0, 0, 0, 0, 0, 0, 0⟩
      ⟨none, none⟩).2.2.2.2.2.2.2.2.2 rfl⟩

/-! ### C7: per-user failure isolation in the batch run -/

theorem handle_foldl_mono (cats : List Category) (txs : List Transaction)
    (today : Int) (ext : ExternalData)
    (beh : UserRec → Except Str GenResponse) :
    ∀ (l : List UserRec) (st : BatchState),
      (∀ x ∈ st.insights,
        x ∈ (l.foldl (handleUserStep cats txs today ext beh) st).insights) ∧
      (∀ x ∈ st.logs,
        x ∈ (l.foldl (handleUserStep cats txs today ext beh) st).logs) := by
  intro l
  induction l with
  | nil => exact fun st => ⟨fun x hx => hx, fun x hx => hx⟩
  | cons v vs ih =>
    intro st
    rw [List.foldl_cons]
    constructor
    · intro x hx
      apply (ih _).1
      simp only [handleUserStep]
      cases hb : beh v with
      | error e => simpa using hx
      | ok resp =>
        cases hp : insightPayload cats txs today ext v resp <;> simp [hp, hx]
    · intro x hx
      apply (ih _).2
      simp only [handleUserStep]
      cases hb : beh v with
      | error e => simp [hx]
      | ok resp =>
        cases hp : insightPayload cats txs today ext v resp <;> simp [hp, hx]

theorem handle_foldl_mem (cats : List Category) (txs : List Transaction)
    (today : Int) (ext : ExternalData)
    (beh : UserRec → Except Str GenResponse) (u : UserRec) :
    ∀ (l : List UserRec) (st : BatchState), u ∈ l →
      (∀ e, beh u = .error e →
        (u.username, e) ∈
          (l.foldl (handleUserStep cats txs today ext beh) st).logs) ∧
      (∀ resp tc, beh u = .ok resp →
        insightPayload cats txs today ext u resp = some tc →
        (⟨tc.1, tc.2, u.id, true, 0⟩ : Insight) ∈
          (l.foldl (handleUserStep cats txs today ext beh) st).insights) := by
  intro l
  induction l with
  | nil => intro st h; exact absurd h (List.not_mem_nil u)
  | cons v vs ih =>
    intro st hmem
    rw [List.foldl_cons]
    rcases List.mem_cons.mp hmem with heq | hvs
    · subst heq
      constructor
      · intro e hbe
        apply (handle_foldl_mono cats txs today ext beh vs _).2
        simp only [handleUserStep, hbe]
        simp
      · intro resp tc hbok hpay
        apply (handle_foldl_mono cats txs today ext beh vs _).1
        simp only [handleUserStep, hbok, hpay]
        simp
    · exact ⟨fun e hbe => (ih _ hvs).1 e hbe,
        fun resp tc hbok hpay => (ih _ hvs).2 resp tc hbok hpay⟩

/-- C7 counterexample: three active users; the second raises, the third is
processed without any exception but its generation response is the empty
string, so it receives no Insight row — refuting "every remaining user
(absent their own failure) receives an Insight row". Users 1 and 3 are still
processed and user 2's failure is logged with its username. -/
theorem batch_failure_counterexample :
    handle_all_users [] [] 0 ⟨some 0, some 0⟩
        [⟨1, "u1".toList, true⟩, ⟨2, "u2".toList, true⟩, ⟨3, "u3".toList, true⟩]
        (fun u =>
          if u.id = 1 then .ok (.text "T\nC".toList)
          else if u.id = 2 then .error "db error".toList
          else .ok (.text [])) =
      ⟨[⟨"T".toList, "C".toList, 1, true, 0⟩],
        [("u2".toList, "db error".toList)]⟩ := by
  decide

/-- C7 amended: in a batch run, each active user's outcome is independent of
every other user's: an exception while processing a user is caught and
logged with that user's username, and a user whose processing completes with
a persistable payload receives an `is_automated = true` Insight row — but a
user whose generation yields an empty title or content is processed without
failure and without a row. -/
theorem batch_isolation_spec (cats : List Category) (txs : List Transaction)
    (today : Int) (ext : ExternalData) (users : List UserRec)
    (beh : UserRec → Except Str GenResponse) (u : UserRec) (hu : u ∈ users)
    (hact : u.is_active = true) :
    (∀ e, beh u = .error e →
      (u.username, e) ∈ (handle_all_users cats txs today ext users beh).logs) ∧
    (∀ resp tc, beh u = .ok resp →
      insightPayload cats txs today ext u resp = some tc →
      (⟨tc.1, tc.2, u.id, true, 0⟩ : Insight) ∈
        (handle_all_users cats txs today ext users beh).insights) :=
  handle_foldl_mem cats txs today ext beh u (users.filter UserRec.is_active)
    ⟨[], []⟩ (List.mem_filter.mpr ⟨hu, hact⟩)

/-- Witness for C7: one active user whose processing raises; its failure is
logged with its username. -/
theorem batch_isolation_spec_witness :
    ("u1".toList, "db error".toList) ∈
      (handle_all_users [] [] 0 ⟨some 0, some 0⟩ [⟨1, "u1".toList, true⟩]
        (fun _ => .error "db error".toList)).logs :=
  (batch_isolation_spec [] [] 0 ⟨some 0, some 0⟩ [⟨1, "u1".toList, true⟩]
      (fun _ => .error "db error".toList) ⟨1, "u1".toList, true⟩
      (by decide) (by decide)).1 "db error".toList rfl

/-! ### C9: the on-demand insight endpoint -/

theorem latestPick_some (l : List Insight) :
    ∀ (a : Insight), ∃ m, l.foldl latestPick (some a) = some m ∧
      a.date_posted ≤ m.date_posted ∧ (m = a ∨ m ∈ l) ∧
      ∀ i ∈ l, i.date_posted ≤ m.date_posted := by
  induction l with
  | nil => exact fun a => ⟨a, rfl, le_refl _, Or.inl rfl, by simp⟩
  | cons v vs ih =>
    intro a
    rw [List.foldl_cons]
    by_cases h : a.date_posted < v.date_posted
    · have hpick : latestPick (some a) v = some v := by simp [latestPick, h]
      rw [hpick]
      obtain ⟨m, hm, hle, hmem, hbound⟩ := ih v
      refine ⟨m, hm, le_trans (le_of_lt h) hle, ?_, ?_⟩
      · rcases hmem with h1 | h1
        · exact Or.inr (by simp [h1])
        · exact Or.inr (by simp [h1])
      · intro i hi
        rcases List.mem_cons.mp hi with rfl | hivs
        · exact hle
        · exact hbound i hivs
    · have hpick : latestPick (some a) v = some a := by simp [latestPick, h]
      rw [hpick]
      obtain ⟨m, hm, hle, hmem, hbound⟩ := ih a
      refine ⟨m, hm, hle, ?_, ?_⟩
      · rcases hmem with h1 | h1
        · exact Or.inl h1
        · exact Or.inr (by simp [h1])
      · intro i hi
        rcases List.mem_cons.mp hi with rfl | hivs
        · exact le_trans (not_lt.mp h) hle
        · exact hbound i hivs

theorem latest_insight_spec (store : List Insight) (uid : Nat) :
    (latest_insight store uid = none ↔
      ∀ i ∈ store, ¬(i.userId = uid ∧ i.is_automated = false)) ∧
    (∀ m, latest_insight store uid = some m →
      m.userId = uid ∧ m.is_automated = false ∧ m ∈ store ∧
      ∀ i ∈ store, i.userId = uid → i.is_automated = false →
        i.date_posted ≤ m.date_posted) := by
  unfold latest_insight
  cases hF : store.filter (fun i => i.userId == uid && !i.is_automated) with
  | nil =>
    have hall : ∀ i ∈ store, ¬(i.userId = uid ∧ i.is_automated = false) := by
      intro i hi hcontra
      have : i ∈ store.filter (fun i => i.userId == uid && !i.is_automated) := by
        rw [List.mem_filter]
        exact ⟨hi, by simp [hcontra.1, hcontra.2]⟩
      rw [hF] at this
      exact absurd this (List.not_mem_nil i)
    exact ⟨by simpa using hall, fun m hm => by simp at hm⟩
  | cons f fs =>
    have hstep : (f :: fs).foldl latestPick none = fs.foldl latestPick (some f) := rfl
    obtain ⟨m, hm, hle, hmem, hbound⟩ := latestPick_some fs f
    rw [hstep, hm]
    have hmF : m ∈ store.filter (fun i => i.userId == uid && !i.is_automated) := by
      rw [hF]
      rcases hmem with h1 | h1
      · simp [h1]
      · simp [h1]
    have hmfields := List.mem_filter.mp hmF
    constructor
    · constructor
      · intro h; exact absurd h (by simp)
      · intro hall
        exact absurd ⟨by simpa using (Bool.and_eq_true _ _ |>.mp hmfields.2).1,
          by simpa using (Bool.and_eq_true _ _ |>.mp hmfields.2).2⟩
          (hall m hmfields.1)
    · intro n hn
      have hnm : n = m := by simpa using hn.symm
      subst hnm
      refine ⟨by simpa using (Bool.and_eq_true _ _ |>.mp hmfields.2).1,
        by simpa using (Bool.and_eq_true _ _ |>.mp hmfields.2).2,
        hmfields.1, ?_⟩
      intro i hi hiu hia
      have hiF : i ∈ store.filter (fun i => i.userId == uid && !i.is_automated) := by
        rw [List.mem_filter]
        exact ⟨hi, by simp [hiu, hia]⟩
      rw [hF] at hiF
      rcases List.mem_cons.mp hiF with rfl | hifs
      · exact hle
      · exact hbound i hifs

/-- C9 counterexample: the caller already has an older on-demand insight;
the new invocation's generation returns the empty string, so it records
nothing (the store is unchanged) — yet the endpoint returns that stale
insight with status 200 instead of the 400-class error the claim requires
when the invocation produced none. -/
theorem endpoint_stale_insight_counterexample :
    generate_personal_insight_create [] [] 0 ⟨some 0, some 0⟩
        [⟨"Old".toList, "OldC".toList, 7, false, 5⟩] ⟨7, "u".toList, true⟩
        (.ok (.text [])) 9 =
      ([⟨"Old".toList, "OldC".toList, 7, false, 5⟩],
        .ok ⟨"Old".toList, "OldC".toList, 7, false, 5⟩) := rfl

/-- C9 amended: the endpoint returns the newest non-automated insight for
the caller present in the store after the invocation — which is the one this
invocation produced when it produced one, but may be a pre-existing row when
it did not — and returns a 400-class error exactly when no non-automated
insight for the caller exists at all. -/
theorem endpoint_latest_spec (cats : List Category) (txs : List Transaction)
    (today : Int) (ext : ExternalData) (store : List Insight) (u : UserRec)
    (beh : Except Str GenResponse) (now : Nat) :
    (∀ ins,
      (generate_personal_insight_create cats txs today ext store u beh now).2 =
          .ok ins →
        ins.userId = u.id ∧ ins.is_automated = false ∧
        ins ∈ (generate_personal_insight_create cats txs today ext store u beh now).1 ∧
        ∀ j ∈ (generate_personal_insight_create cats txs today ext store u beh now).1,
          j.userId = u.id → j.is_automated = false →
            j.date_posted ≤ ins.date_posted) ∧
    ((generate_personal_insight_create cats txs today ext store u beh now).2 =
        .error () ↔
      ∀ j ∈ (generate_personal_insight_create cats txs today ext store u beh now).1,
        ¬(j.userId = u.id ∧ j.is_automated = false)) ∧
    (∀ resp tc, beh = .ok resp →
      insightPayload cats txs today ext u resp = some tc →
      (∀ j ∈ store, j.date_posted < now) →
      (generate_personal_insight_create cats txs today ext store u beh now).2 =
        .ok ⟨tc.1, tc.2, u.id, false, now⟩) := by
  have hspec := latest_insight_spec
    (generate_user_insight cats txs today ext store u beh now) u.id
  refine ⟨?_, ?_, ?_⟩
  · intro ins hok
    cases hL : latest_insight
        (generate_user_insight cats txs today ext store u beh now) u.id with
    | none =>
      rw [generate_personal_insight_create] at hok
      simp only [hL] at hok
      exact Except.noConfusion hok
    | some m =>
      rw [generate_personal_insight_create] at hok
      simp only [hL] at hok
      have hins : m = ins := by simpa using hok
      subst hins
      simpa [generate_personal_insight_create, hL] using hspec.2 m hL
  · cases hL : latest_insight
        (generate_user_insight cats txs today ext store u beh now) u.id with
    | none =>
      simp only [generate_personal_insight_create, hL]
      simpa using hspec.1.mp hL
    | some m =>
      simp only [generate_personal_insight_create, hL]
      constructor
      · intro h; simp at h
      · intro hall
        obtain ⟨hmu, hma, hmem, _⟩ := hspec.2 m hL
        exact absurd ⟨hmu, hma⟩ (hall m hmem)
  · intro resp tc hbeh hpay hfresh
    subst hbeh
    have hstore2 : generate_user_insight cats txs today ext store u
        (.ok resp) now =
        store ++ [⟨tc.1, tc.2, u.id, false, now⟩] := by
      simp [generate_user_insight, hpay]
    cases hL : latest_insight
        (generate_user_insight cats txs today ext store u (.ok resp) now) u.id with
    | none =>
      exfalso
      have hnew : (⟨tc.1, tc.2, u.id, false, now⟩ : Insight) ∈
          generate_user_insight cats txs today ext store u (.ok resp) now := by
        rw [hstore2]; simp
      exact hspec.1.mp hL _ hnew ⟨rfl, rfl⟩
    | some m =>
      obtain ⟨hmu, hma, hmem, hbound⟩ := hspec.2 m hL
      have hnewmem : (⟨tc.1, tc.2, u.id, false, now⟩ : Insight) ∈
          generate_user_insight cats txs today ext store u (.ok resp) now := by
        rw [hstore2]; simp
      have hge : now ≤ m.date_posted := hbound _ hnewmem rfl rfl
      rw [hstore2] at hmem
      rcases List.mem_append.mp hmem with hold | hnew
      · exact absurd hge (not_le.mpr (hfresh m hold))
      · have hm : m = ⟨tc.1, tc.2, u.id, false, now⟩ := by simpa using hnew
        simp [generate_personal_insight_create, hL, hm]

/-- Witness for C9: an empty store and a successful generation; the
endpoint returns exactly the row the invocation created. -/
theorem endpoint_latest_spec_witness :
    (generate_personal_insight_create [] [] 0 ⟨some 0, some 0⟩ []
        ⟨7, "u".toList, true⟩ (.ok (.text "T\nC".toList)) 9).2 =
      .ok ⟨"T".toList, "C".toList, 7, false, 9⟩ :=
  (endpoint_latest_spec [] [] 0 ⟨some 0, some 0⟩ [] ⟨7, "u".toList, true⟩
      (.ok (.text "T\nC".toList)) 9).2.2 (.text "T\nC".toList)
    ("T".toList, "C".toList) rfl rfl (by simp)

/-! ### C10: the insight listing is not filtered by user -/

theorem mem_insertByDateDesc (i x : Insight) :
    ∀ l, x ∈ insertByDateDesc i l ↔ x = i ∨ x ∈ l := by
  intro l
  induction l with
  | nil => simp [insertByDateDesc]
  | cons j js ih =>
    by_cases h : j.date_posted < i.date_posted
    · rw [insertByDateDesc, if_pos h]
      simp
    · rw [insertByDateDesc, if_neg h]
      simp [ih]
      tauto

theorem insertByDateDesc_sorted (i : Insight) :
    ∀ l, l.Sorted (fun a b => b.date_posted ≤ a.date_posted) →
      (insertByDateDesc i l).Sorted (fun a b => b.date_posted ≤ a.date_posted) := by
  intro l
  induction l with
  | nil => intro _; simp [insertByDateDesc]
  | cons j js ih =>
    intro hs
    rw [List.sorted_cons] at hs
    obtain ⟨hj, hjs⟩ := hs
    by_cases h : j.date_posted < i.date_posted
    · rw [insertByDateDesc, if_pos h, List.sorted_cons]
      constructor
      · intro b hb
        rcases List.mem_cons.mp hb with rfl | hbjs
        · exact le_of_lt h
        · exact le_trans (hj b hbjs) (le_of_lt h)
      · exact List.sorted_cons.mpr ⟨hj, hjs⟩
    · rw [insertByDateDesc, if_neg h, List.sorted_cons]
      refine ⟨?_, ih hjs⟩
      intro b hb
      rcases (mem_insertByDateDesc i b js).mp hb with rfl | hbjs
      · exact not_lt.mp h
      · exact hj b hbjs

theorem orderByDatePostedDesc_sorted (store : List Insight) :
    (orderByDatePostedDesc store).Sorted
      (fun a b => b.date_posted ≤ a.date_posted) := by
  unfold orderByDatePostedDesc
  induction store with
  | nil => simp
  | cons v vs ih => exact insertByDateDesc_sorted v _ ih

/-- C10: the listing response is identical for every requesting user (no
ownership filter is applied to the globally date-ordered table and the page
size comes from the global count), its page is sorted by descending posting
date, and concretely a page served to user 1 contains an insight owned by
user 2. -/
theorem insight_list_leaks_across_users :
    (∀ (store : List Insight) (u1 u2 : UserRec) (page : Nat),
      insight_list store u1 page = insight_list store u2 page) ∧
    (∀ (store : List Insight) (u : UserRec) (page : Nat),
      (insight_list store u page).results.Sorted
          (fun a b => b.date_posted ≤ a.date_posted) ∧
        (insight_list store u page).total_items = store.length) ∧
    ((⟨"T".toList, "C".toList, 2, true, 3⟩ : Insight) ∈
      (insight_list [⟨"T".toList, "C".toList, 2, true, 3⟩]
        ⟨1, "a".toList, true⟩ 1).results) := by
  refine ⟨fun store u1 u2 page => rfl, ?_, by decide⟩
  intro store u page
  refine ⟨?_, by simp [insight_list]⟩
  have hs := orderByDatePostedDesc_sorted store
  have hgen : ∀ (n m : Nat),
      (((orderByDatePostedDesc store).drop n).take m).Sorted
        (fun a b => b.date_posted ≤ a.date_posted) := by
    intro n m
    exact List.Pairwise.sublist
      ((List.take_sublist _ _).trans (List.drop_sublist _ _)) hs
  simp only [insight_list]
  exact hgen _ _
